import Mathlib

/-!
Verification of the miniOS process-management kernel against its
natural-language specification.

The C sources are embedded shallowly: every kernel routine that a claim
touches is translated into an executable Lean function over explicit state
values.  Pointers into the PCB arena become `Pcb` values or pids; the
intrusive process queues become `List Pcb`; machine integers become `Nat`
or `Int` with explicit two's-complement wrapping where the C code relies
on overflow.  Each definition cites the C function it embeds.
-/

namespace MiniOS

/-! Constants from h/xeroskernel.h and h/kbd.h. -/

/-- PCB_TABLE_SIZE: the system supports 32 processes. -/
def PCB_TABLE_SIZE : Nat := 32

/-- TIME_SLICE in milliseconds. -/
def TIME_SLICE : Int := 10

/-- BUFFER_SIZE = sizeof(unsigned long) = 4 bytes: the IPC unit of transfer. -/
def BUFFER_SIZE : Nat := 4

/-- SIGNAL_TABLE_SIZE: 32 signals, numbered 0..31. -/
def SIGNAL_TABLE_SIZE : Nat := 32

/-- process_state_t from xeroskernel.h. -/
inductive ProcessState where
  | running
  | ready
  | blocked
  | stopped
deriving DecidableEq, Repr

/-- blocked_queue_t from xeroskernel.h (SENDER, RECEIVER, WAIT, RECEIVE_ANY,
SLEEP, READ, NONE). -/
inductive BlockedQueue where
  | sender
  | receiver
  | wait
  | receiveAny
  | sleepq
  | readq
  | noneq
deriving DecidableEq, Repr

/-- signal_delivery_context_t (xeroskernel.h): the part of the context the
kernel splices onto the process stack that `handle_pending_signals` fills in
and `service_syssigreturn` later reads back.  The register-save area and
trampoline return data are fixed boilerplate and are not modelled; `cntx` is
the old stack pointer, i.e. the address just above the spliced frame. -/
structure SigFrame where
  handler : Nat
  cntx : Int
  last_signal_delivered : Int
  saved_result_code : Int
deriving DecidableEq, Repr

/-- pcb_t from xeroskernel.h, restricted to the fields the verified claims
touch.  `signal_table` maps a signal number to the handler's address (0 is
the C NULL, meaning the signal is ignored).  `frames` models the stack
region holding the signal-delivery contexts spliced by
`handle_pending_signals`, newest first; `esp` is the saved stack pointer.
`ipc_num` models `ipc_args[1]`, the word a blocked sender passed to syssend.
`priority` is 0..3 (validated by syssetprio), so it is a `Fin 4`. -/
structure Pcb where
  pid : Nat
  state : ProcessState
  priority : Fin 4
  result_code : Int
  blocked_on : Option Nat
  blocked_queue : BlockedQueue
  key : Int
  cpuTime : Int
  signal_table : Fin 32 → Nat
  pending_signals : Nat
  last_signal_delivered : Int
  esp : Int
  frames : List SigFrame
  ipc_num : Nat
deriving DecidableEq

/-- A concrete PCB used by the closed witness evaluations; fields are the
values a freshly created process would have. -/
def mkPcb (pid : Nat) : Pcb :=
  { pid := pid
    state := ProcessState.running
    priority := 3
    result_code := 0
    blocked_on := none
    blocked_queue := BlockedQueue.noneq
    key := 0
    cpuTime := 0
    signal_table := fun _ => 0
    pending_signals := 0
    last_signal_delivered := -1
    esp := 0
    frames := []
    ipc_num := 0 }

/-! Ready queues (disp.c).  `ready_queues` is an array of NUM_PRIORITIES = 4
FIFO queues of PCBs. -/

abbrev ReadyQueues := Fin 4 → List Pcb

def empty_ready : ReadyQueues := fun _ => []

/-- The field updates `ready` (disp.c) performs on the process it readies:
clears blocked_on and blocked_queue and sets the state to READY. -/
def readyFields (p : Pcb) : Pcb :=
  { p with blocked_on := none, blocked_queue := BlockedQueue.noneq,
           state := ProcessState.ready }

/-- ready (disp.c): enqueue the process on the ready queue for its priority,
after clearing its blocked fields.  The idle process (pid 0) is never
enqueued. -/
def ready (rq : ReadyQueues) (p : Pcb) : ReadyQueues :=
  if p.pid ≠ 0 then
    Function.update rq p.priority (rq p.priority ++ [readyFields p])
  else rq

/-! Delta list (deltalist.c, src/unnamed/part_002 lines 440-629).  The
source stores sleeping PCBs in a singly linked list threaded through the
PCB `next` pointers, each node's `key` holding the delay relative to its
predecessor; the embedding is a `List Pcb` in head-to-tail order. -/

/-- insert (deltalist.c): walk the list subtracting each predecessor's key
from the remaining delay; insert before the first node whose key exceeds
the remaining delay and charge the new node's delay to that successor;
otherwise append at the tail. -/
def insert (list : List Pcb) (proc : Pcb) (delay : Int) : List Pcb :=
  match list with
  | [] => [{ proc with key := delay }]
  | curr :: rest =>
    if delay < curr.key then
      { proc with key := delay } :: { curr with key := curr.key - delay } :: rest
    else
      curr :: insert rest proc (delay - curr.key)

/-- poll (deltalist.c): remove and return the head.  The source then runs
`proc->next->key += proc->key` BEFORE any null check; when the removed head
was the only node, `proc->next` is NULL and the write goes through a null
pointer (on this hardware it lands at physical address 0 and leaves the
list itself unchanged).  The returned Boolean is true exactly when that
unguarded null dereference happened. -/
def poll (list : List Pcb) : Option (Pcb × List Pcb × Bool) :=
  match list with
  | [] => none
  | proc :: rest =>
    match rest with
    | [] => some (proc, [], true)
    | nextp :: rest2 => some (proc, { nextp with key := nextp.key + proc.key } :: rest2, false)

/-- The inner walk of delta_remove (deltalist.c) over the nodes after the
head: `acc` accumulates the keys of the nodes already passed (the source's
`acc`); on finding the process, charge its key to its successor and return
the accumulated absolute delay.  `none` models the `assert(0)` that fires
when the process is not in the list. -/
def delta_remove_walk (rest : List Pcb) (acc : Int) (pid : Nat) :
    Option (Int × List Pcb) :=
  match rest with
  | [] => none
  | curr :: rest2 =>
    if curr.pid = pid then
      let rest2' := match rest2 with
        | [] => []
        | nextp :: rest3 => { nextp with key := nextp.key + curr.key } :: rest3
      some (acc + curr.key, rest2')
    else
      (delta_remove_walk rest2 (acc + curr.key) pid).map (fun r => (r.1, curr :: r.2))

/-- delta_remove (deltalist.c): remove the given process and return the
absolute sleep time remaining for it (the sum of the keys from the head
through the removed node).  The head case delegates to poll and returns the
head's own key.  `none` models the asserts (empty list / process absent). -/
def delta_remove (list : List Pcb) (pid : Nat) : Option (Int × List Pcb) :=
  match list with
  | [] => none
  | headp :: rest =>
    if headp.pid = pid then
      match poll (headp :: rest) with
      | some (proc, rest', _) => some (proc.key, rest')
      | none => none
    else
      (delta_remove_walk rest headp.key pid).map (fun r => (r.1, headp :: r.2))

/-- The absolute remaining delay of the process `pid` in a delta list: the
sum of the keys from the head through the node holding `pid` (the invariant
delta_remove is documented to return). -/
def keysThrough (list : List Pcb) (pid : Nat) : Int :=
  match list with
  | [] => 0
  | p :: rest => if p.pid = pid then p.key else p.key + keysThrough rest pid

/-! Sleep device (sleep.c). -/

/-- ms_to_time_slices (sleep.c): milliseconds / TIME_SLICE, rounded up. -/
def ms_to_time_slices (milliseconds : Nat) : Int :=
  (milliseconds / 10 : Nat) + (if milliseconds % 10 ≠ 0 then 1 else 0)

/-- The sleep-device state a tick acts on: the delta list of sleepers and
the ready queues that woken processes are moved to. -/
structure SleepState where
  sleep_queue : List Pcb
  ready_queues : ReadyQueues
deriving DecidableEq

/-- A process as sleep (sleep.c) leaves it in the delta list: Blocked on
SLEEP with the given relative delay in its key (set by insert). -/
def sleeping (p : Pcb) (a : Int) : Pcb :=
  { p with state := ProcessState.blocked, blocked_queue := BlockedQueue.sleepq, key := a }

/-- sleep (sleep.c): convert milliseconds to time slices, insert the caller
into the delta list, and mark it Blocked on SLEEP. -/
def sleep_call (st : SleepState) (proc : Pcb) (milliseconds : Nat) : SleepState :=
  let asleep : Pcb :=
    { proc with state := ProcessState.blocked, blocked_queue := BlockedQueue.sleepq }
  { st with sleep_queue := insert st.sleep_queue asleep (ms_to_time_slices milliseconds) }

/-- The while loop of tick (sleep.c): while the head exists and its key is
≤ 0, poll it, set its result_code to 0 and ready it.  The poll performed by
the source is inlined here (remove the head, charge its key to the
successor; for a singleton list the source's poll writes through the null
next pointer, see `poll`). -/
def tick_loop (l : List Pcb) (rq : ReadyQueues) : List Pcb × ReadyQueues :=
  match l with
  | [] => ([], rq)
  | proc :: rest =>
    if proc.key ≤ 0 then
      match rest with
      | [] => ([], ready rq { proc with result_code := 0 })
      | nextp :: rest2 =>
        tick_loop ({ nextp with key := nextp.key + proc.key } :: rest2)
          (ready rq { proc with result_code := 0 })
    else (proc :: rest, rq)
termination_by l.length
decreasing_by simp

/-- tick (sleep.c): if the delta list is non-empty, decrement the head's
key, then wake every leading node whose key has reached 0 or below. -/
def tick (st : SleepState) : SleepState :=
  match st.sleep_queue with
  | [] => st
  | proc :: rest =>
    let res := tick_loop ({ proc with key := proc.key - 1 } :: rest) st.ready_queues
    { sleep_queue := res.1, ready_queues := res.2 }

/-! Dispatcher pieces (disp.c, src/unnamed/part_005). -/

/-- The dispatcher state that service_syssleep touches: the current
process, the ready queues, the delta list of sleepers and the idle
process. -/
structure DispState where
  current : Pcb
  ready_queues : ReadyQueues
  sleep_queue : List Pcb
  idle_proc : Pcb
deriving DecidableEq

/-- The queue scan of next (disp.c): walk the ready queues from priority 0
(highest) to 3 and dequeue the head of the first non-empty one. -/
def next_scan (rq : ReadyQueues) : Option (Pcb × ReadyQueues) :=
  match rq 0 with
  | p :: rest => some (p, Function.update rq 0 rest)
  | [] =>
    match rq 1 with
    | p :: rest => some (p, Function.update rq 1 rest)
    | [] =>
      match rq 2 with
      | p :: rest => some (p, Function.update rq 2 rest)
      | [] =>
        match rq 3 with
        | p :: rest => some (p, Function.update rq 3 rest)
        | [] => none

/-- next (disp.c): select the next process from the ready queues, falling
back to the idle process, and mark it RUNNING. -/
def next (st : DispState) : Pcb × DispState :=
  match next_scan st.ready_queues with
  | some (p, rq') =>
    ({ p with state := ProcessState.running }, { st with ready_queues := rq' })
  | none =>
    ({ st.idle_proc with state := ProcessState.running },
     { st with idle_proc := { st.idle_proc with state := ProcessState.running } })

/-- service_syssleep (disp.c): if milliseconds > 0, put the current process
to sleep (insert it into the delta list Blocked on SLEEP) and select the
next process to run; otherwise do nothing at all — in particular the
caller's result_code is not written, so the value returned to user mode by
the context switcher (ctsw.c sets EAX = proc->result_code on resumption) is
whatever the previous kernel interaction left there. -/
def service_syssleep (milliseconds : Nat) (st : DispState) : DispState :=
  if milliseconds > 0 then
    let asleep : Pcb :=
      { st.current with state := ProcessState.blocked,
                        blocked_queue := BlockedQueue.sleepq }
    let st1 : DispState :=
      { st with sleep_queue :=
          insert st.sleep_queue asleep (ms_to_time_slices milliseconds) }
    let n := next st1
    { n.2 with current := n.1 }
  else st

/-! Process termination (cleanup, disp.c lines 982-1017). -/

/-- unblock (disp.c): set the given result code and ready the process. -/
def unblock (p : Pcb) (result_code : Int) : Pcb :=
  readyFields { p with result_code := result_code }

/-- One while loop of cleanup (disp.c): dequeue every resident of a blocked
queue and unblock it with the given result code.  Returns the processes in
wake order together with the drained queue (always empty, since the loop
runs until dequeue returns NULL). -/
def drain (q : List Pcb) (result_code : Int) : List Pcb × List Pcb :=
  match q with
  | [] => ([], [])
  | p :: rest =>
    let r := drain rest result_code
    (unblock p result_code :: r.1, r.2)

/-- The observable effect of cleanup (disp.c) on the terminating process's
blocked queues: drain the Sender queue waking each resident with −1, the
Receiver queue with −1, and the WAIT queue with 0; then stop the process
(which decrements user_proc_count) and, if exactly one user process remains
and it is the single resident of the receive-any queue, wake it with −10.
Returns the woken processes in wake order, the three drained queues, and
the remaining receive-any queue. -/
structure CleanupOut where
  woken : List Pcb
  senders : List Pcb
  receivers : List Pcb
  waiters : List Pcb
  receive_any_queue : List Pcb
deriving DecidableEq

def cleanup (senders receivers waiters receive_any_queue : List Pcb)
    (user_proc_count : Int) : CleanupOut :=
  let s := drain senders (-1)
  let r := drain receivers (-1)
  let w := drain waiters 0
  let count_after_stop := user_proc_count - 1
  if count_after_stop = 1 ∧ receive_any_queue.length = 1 then
    let a := drain receive_any_queue (-10)
    { woken := s.1 ++ r.1 ++ w.1 ++ a.1, senders := s.2, receivers := r.2,
      waiters := w.2, receive_any_queue := a.2 }
  else
    { woken := s.1 ++ r.1 ++ w.1, senders := s.2, receivers := r.2,
      waiters := w.2, receive_any_queue := receive_any_queue }

/-! IPC word copy (msg.c).  send and recv move the one-word message with
`strncpy((char *) recv_buf, (char *) send_buf, BUFFER_SIZE)`; strncpy
copies bytes up to and including the first NUL and zero-fills the
remainder, so the copy is byte-exact only until the first zero byte of the
word.  x86 is little-endian, so byte i of the word value v is
v / 256^i % 256. -/

/-- strncpy (C library) restricted to a fixed-length byte list: copy bytes
until a NUL is found (the NUL is copied too) and zero-fill the rest of the
destination. -/
def strncpy_bytes : List Nat → List Nat
  | [] => []
  | b :: rest =>
    if b = 0 then 0 :: List.replicate rest.length 0
    else b :: strncpy_bytes rest

/-- The four little-endian bytes of a 32-bit word. -/
def word_to_bytes (v : Nat) : List Nat :=
  [v % 256, v / 256 % 256, v / 256 ^ 2 % 256, v / 256 ^ 3 % 256]

/-- Reassemble a little-endian byte list into a word. -/
def bytes_to_word : List Nat → Nat
  | [] => 0
  | b :: rest => b + 256 * bytes_to_word rest

/-- The word the receiver's buffer holds after msg.c copies the sender's
word with strncpy over BUFFER_SIZE = 4 bytes. -/
def ipc_copy_word (v : Nat) : Nat :=
  bytes_to_word (strncpy_bytes (word_to_bytes v))

/-- send (msg.c): inputs.  `sp_receivers` is the sending process's RECEIVER
blocked queue, `rp_senders` the receiving process's SENDER blocked queue.
`send_buf` is the word to transfer (service_syssend passes &num). -/
structure SendIn where
  send_proc : Pcb
  recv_proc : Pcb
  send_buf : Nat
  sp_receivers : List Pcb
  rp_senders : List Pcb
  receive_any_queue : List Pcb
deriving DecidableEq

/-- send (msg.c): outputs.  `from_cell` and `num_cell` are the writes send
performs through the receiver's ipc_args pointers (`*from_pid` and the
receive buffer), `none` when the rendezvous did not complete. -/
structure SendOut where
  result : Int
  send_proc : Pcb
  recv_proc : Pcb
  from_cell : Option Nat
  num_cell : Option Nat
  sp_receivers : List Pcb
  rp_senders : List Pcb
  receive_any_queue : List Pcb
deriving DecidableEq

/-- remove (queue.c) keyed by pid: unlink the given process from the queue
(the source unlinks the node directly; pids are unique within a queue). -/
def queue_remove (q : List Pcb) (pid : Nat) : List Pcb :=
  match q with
  | [] => []
  | p :: rest => if p.pid = pid then rest else p :: queue_remove rest pid

/-- send (msg.c): if the receiver is blocked on a matching recv
(remove_from_blocked_queue: blocked_on is the sender and blocked_queue is
RECEIVER) or on a receive-any (remove_from_receive_any_queue: blocked_queue
is RECEIVE_ANY), remove it from that queue, write the sender's pid to the
receiver's from_pid cell, strncpy the word into the receive buffer, wake
the receiver with result 0 and return 0.  Otherwise enqueue the sender on
the receiver's SENDER queue, Blocked(Sender on receiver), and report −1 to
the dispatcher (which then schedules another process). -/
def send (s : SendIn) : SendOut :=
  if s.recv_proc.blocked_on = some s.send_proc.pid ∧
     s.recv_proc.blocked_queue = BlockedQueue.receiver then
    { result := 0
      send_proc := s.send_proc
      recv_proc := readyFields { s.recv_proc with result_code := 0 }
      from_cell := some s.send_proc.pid
      num_cell := some (ipc_copy_word s.send_buf)
      sp_receivers := queue_remove s.sp_receivers s.recv_proc.pid
      rp_senders := s.rp_senders
      receive_any_queue := s.receive_any_queue }
  else if s.recv_proc.blocked_queue = BlockedQueue.receiveAny then
    { result := 0
      send_proc := s.send_proc
      recv_proc := readyFields { s.recv_proc with result_code := 0 }
      from_cell := some s.send_proc.pid
      num_cell := some (ipc_copy_word s.send_buf)
      sp_receivers := s.sp_receivers
      rp_senders := s.rp_senders
      receive_any_queue := queue_remove s.receive_any_queue s.recv_proc.pid }
  else
    { result := -1
      send_proc :=
        { s.send_proc with blocked_on := some s.recv_proc.pid,
                           blocked_queue := BlockedQueue.sender,
                           state := ProcessState.blocked,
                           ipc_num := s.send_buf }
      recv_proc := s.recv_proc
      from_cell := none
      num_cell := none
      sp_receivers := s.sp_receivers
      rp_senders := s.rp_senders ++
        [{ s.send_proc with blocked_on := some s.recv_proc.pid,
                            blocked_queue := BlockedQueue.sender,
                            state := ProcessState.blocked,
                            ipc_num := s.send_buf }]
      receive_any_queue := s.receive_any_queue }

/-- recv (msg.c): inputs.  `send_proc` is the designated sender, or `none`
for receive-any; `recv_senders` is the receiver's SENDER blocked queue and
`sp_receivers` the designated sender's RECEIVER blocked queue. -/
structure RecvIn where
  recv_proc : Pcb
  send_proc : Option Pcb
  recv_senders : List Pcb
  sp_receivers : List Pcb
  receive_any_queue : List Pcb
deriving DecidableEq

/-- recv (msg.c): outputs.  `woken_sender` is the sender the rendezvous
readied, if any; `from_cell` and `num_cell` are the writes through the
receiver's out-pointers. -/
structure RecvOut where
  result : Int
  recv_proc : Pcb
  woken_sender : Option Pcb
  from_cell : Option Nat
  num_cell : Option Nat
  recv_senders : List Pcb
  sp_receivers : List Pcb
  receive_any_queue : List Pcb
deriving DecidableEq

/-- recv (msg.c): with a designated sender, complete the rendezvous if that
sender is blocked on a matching send (copying its ipc_args word into the
receive buffer with strncpy and waking it with 0), else block the receiver
on the sender's RECEIVER queue.  With no designated sender (receive-any),
dequeue the receiver's SENDER queue: if a sender is waiting, copy its word,
record its pid in the from cell and wake it with 0; otherwise block the
receiver on the global receive-any queue. -/
def recv (s : RecvIn) : RecvOut :=
  match s.send_proc with
  | some sp =>
    if sp.blocked_on = some s.recv_proc.pid ∧
       sp.blocked_queue = BlockedQueue.sender then
      { result := 0
        recv_proc := s.recv_proc
        woken_sender := some (readyFields { sp with result_code := 0 })
        from_cell := none
        num_cell := some (ipc_copy_word sp.ipc_num)
        recv_senders := queue_remove s.recv_senders sp.pid
        sp_receivers := s.sp_receivers
        receive_any_queue := s.receive_any_queue }
    else
      { result := -1
        recv_proc :=
          { s.recv_proc with blocked_on := some sp.pid,
                             blocked_queue := BlockedQueue.receiver,
                             state := ProcessState.blocked }
        woken_sender := none
        from_cell := none
        num_cell := none
        recv_senders := s.recv_senders
        sp_receivers := s.sp_receivers ++
          [{ s.recv_proc with blocked_on := some sp.pid,
                              blocked_queue := BlockedQueue.receiver,
                              state := ProcessState.blocked }]
        receive_any_queue := s.receive_any_queue }
  | none =>
    match s.recv_senders with
    | sp :: rest =>
      { result := 0
        recv_proc := s.recv_proc
        woken_sender := some (readyFields { sp with result_code := 0 })
        from_cell := some sp.pid
        num_cell := some (ipc_copy_word sp.ipc_num)
        recv_senders := rest
        sp_receivers := s.sp_receivers
        receive_any_queue := s.receive_any_queue }
    | [] =>
      { result := -1
        recv_proc :=
          { s.recv_proc with state := ProcessState.blocked,
                             blocked_queue := BlockedQueue.receiveAny }
        woken_sender := none
        from_cell := none
        num_cell := none
        recv_senders := []
        sp_receivers := s.sp_receivers
        receive_any_queue := s.receive_any_queue ++
          [{ s.recv_proc with state := ProcessState.blocked,
                              blocked_queue := BlockedQueue.receiveAny }] }

/-! Signal subsystem (signal.c). -/

/-- set_signal_bit (signal.c): bitmask | (1 << signal_number).  The C int
bitmask is modelled as a Nat below 2^32. -/
def set_signal_bit (bitmask : Nat) (signal_number : Nat) : Nat :=
  bitmask ||| (1 <<< signal_number)

/-- is_signal_bit_set (signal.c): 0x01 & (bitmask >> signal_number). -/
def is_signal_bit_set (bitmask : Nat) (signal_number : Nat) : Bool :=
  (bitmask >>> signal_number) &&& 1 = 1

/-- clear_signal_bit (signal.c): bitmask & ~(0x01 << signal_number), the
complement taken within the 32 bits of the C int. -/
def clear_signal_bit (bitmask : Nat) (signal_number : Nat) : Nat :=
  bitmask &&& ((2 ^ 32 - 1) ^^^ (1 <<< signal_number))

/-- The descending scan of handle_pending_signals (signal.c): starting at
the given signal number and walking down, return the first (i.e. highest)
set bit, or −1 when none is set. -/
def find_highest_from (bitmask : Nat) : Nat → Int
  | 0 => if is_signal_bit_set bitmask 0 then 0 else -1
  | n + 1 =>
    if is_signal_bit_set bitmask (n + 1) then ((n : Int) + 1)
    else find_highest_from bitmask n

/-- sizeof(signal_delivery_context_t): 11 longs of register save area plus
return_address, handler, cntx, last_signal_delivered and saved_result_code,
4 bytes each = 64 bytes. -/
def sdcSize : Int := 64

/-- handle_pending_signals (signal.c): scan the pending bitmask from 31
down; if a signal is pending and its number exceeds last_signal_delivered,
clear its bit, splice a signal delivery context onto the process stack
(lowering esp by sizeof(signal_delivery_context_t) and recording the
handler, the old stack pointer, the old last_signal_delivered and the old
result_code), and set last_signal_delivered to the delivered signal. -/
def handle_pending_signals (p : Pcb) : Pcb :=
  let signal_number := find_highest_from p.pending_signals 31
  if signal_number = -1 then p
  else if signal_number > p.last_signal_delivered then
    let s : Nat := signal_number.toNat
    { p with
      pending_signals := clear_signal_bit p.pending_signals s
      esp := p.esp - sdcSize
      frames :=
        { handler := p.signal_table ⟨s % 32, Nat.mod_lt _ (by norm_num)⟩
          cntx := p.esp
          last_signal_delivered := p.last_signal_delivered
          saved_result_code := p.result_code } :: p.frames
      last_signal_delivered := signal_number }
  else p

/-- service_syssigreturn (disp.c): restore the stack pointer from the
old_sp the trampoline passed back, and reload result_code and
last_signal_delivered from just above it.  For old_sp equal to the spliced
frame's cntx, the source's reads at old_sp − sizeof(int) and
old_sp − 2*sizeof(int) hit exactly the frame's saved_result_code and
last_signal_delivered fields (offsets 60 and 56 of the 64-byte frame), so
popping the newest frame models the trampoline flow; `none` models a
sigreturn with no spliced frame, where the source would read unmodelled
memory. -/
def service_syssigreturn (p : Pcb) : Option Pcb :=
  match p.frames with
  | [] => none
  | f :: rest =>
    some { p with esp := f.cntx
                  result_code := f.saved_result_code
                  last_signal_delivered := f.last_signal_delivered
                  frames := rest }

/-- The kernel state unblock_on_signal (signal.c) can touch besides the
target PCB: the blocked queue of the process the target is blocked on (the
one matching the target's blocked_queue kind), the global receive-any
queue, the sleep delta list, the keyboard's chars_transferred counter, and
the ready queues that signal (signal.c) moves the unblocked target to. -/
structure SignalEnv where
  target_queue : List Pcb
  receive_any_queue : List Pcb
  sleep_queue : List Pcb
  chars_transferred : Int
  ready_queues : ReadyQueues
deriving DecidableEq

/-- unblock_on_signal (signal.c): remove the target from whichever blocked
queue it is on and set its result code: −666 for SENDER, RECEIVER,
RECEIVE_ANY and WAIT; the absolute remaining sleep time (delta_remove)
times TIME_SLICE for SLEEP; for READ, chars_transferred if non-zero else
−666 (READ has no queue to leave).  Finally clear blocked_on and
blocked_queue.  `none` models the asserts (target absent from the sleep
list, or blocked with no queue kind). -/
def unblock_on_signal (env : SignalEnv) (p : Pcb) : Option (Pcb × SignalEnv) :=
  match p.blocked_queue with
  | BlockedQueue.sender =>
    some ({ p with result_code := -666, blocked_on := none,
                   blocked_queue := BlockedQueue.noneq },
          { env with target_queue := queue_remove env.target_queue p.pid })
  | BlockedQueue.receiver =>
    some ({ p with result_code := -666, blocked_on := none,
                   blocked_queue := BlockedQueue.noneq },
          { env with target_queue := queue_remove env.target_queue p.pid })
  | BlockedQueue.receiveAny =>
    some ({ p with result_code := -666, blocked_on := none,
                   blocked_queue := BlockedQueue.noneq },
          { env with receive_any_queue :=
              queue_remove env.receive_any_queue p.pid })
  | BlockedQueue.sleepq =>
    match delta_remove env.sleep_queue p.pid with
    | some r =>
      some ({ p with result_code := r.1 * TIME_SLICE, blocked_on := none,
                     blocked_queue := BlockedQueue.noneq },
            { env with sleep_queue := r.2 })
    | none => none
  | BlockedQueue.wait =>
    some ({ p with result_code := -666, blocked_on := none,
                   blocked_queue := BlockedQueue.noneq },
          { env with target_queue := queue_remove env.target_queue p.pid })
  | BlockedQueue.readq =>
    some ({ p with
             result_code :=
               if env.chars_transferred = 0 then -666 else env.chars_transferred
             blocked_on := none
             blocked_queue := BlockedQueue.noneq }, env)
  | BlockedQueue.noneq => none

/-- signal (signal.c): for a valid signal number, if the target's handler
for it is non-null, mark the signal pending and, when the target is blocked
on a system call, unblock it (unblock_on_signal) and ready it; a null
handler means the signal is silently ignored.  Returns 0 in all those
cases and −583 for an out-of-range signal number.  (The −514 no-such-target
case is decided by the dispatcher's get_pcb before signal is reached and is
not modelled here.) -/
def signal (env : SignalEnv) (p : Pcb) (signal_number : Int) :
    Option (Int × Pcb × SignalEnv) :=
  if h : 0 ≤ signal_number ∧ signal_number < 32 then
    if p.signal_table ⟨signal_number.toNat, by omega⟩ ≠ 0 then
      let p1 :=
        { p with pending_signals :=
            set_signal_bit p.pending_signals signal_number.toNat }
      if p1.state = ProcessState.blocked then
        match unblock_on_signal env p1 with
        | some r =>
          some (0, readyFields r.1,
                { r.2 with ready_queues := ready r.2.ready_queues r.1 })
        | none => none
      else some (0, p1, env)
    else some (0, p, env)
  else some (-583, p, env)

/-! syssighandler service (disp.c) and the pointer validation it uses
(mem.c). -/

/-- The memory layout constants valid_ptr (mem.c) checks against: the
memory hole bounds (i386.h) and the maximum address. -/
structure MemCfg where
  holestart : Nat
  holeend : Nat
  maxaddr : Nat
deriving DecidableEq

/-- in_memory_range (mem.c): the address lies strictly between 0 and the
hole, or between the hole end and maxaddr. -/
def in_memory_range (cfg : MemCfg) (addr : Nat) : Bool :=
  (0 < addr && addr < cfg.holestart) || (cfg.holeend ≤ addr && addr < cfg.maxaddr)

/-- valid_ptr (mem.c): non-null and within the valid memory range. -/
def valid_ptr (cfg : MemCfg) (addr : Nat) : Bool :=
  addr ≠ 0 && in_memory_range cfg addr

/-- service_syssighandler (disp.c): reject signal numbers outside 0..30
with −1 (signal 31 cannot be reassigned), a non-null but invalid handler
pointer with −2, and an invalid old_handler output pointer with −3;
otherwise store the old handler through the output pointer (modelled as the
returned Option), install the new handler and return 0. -/
def service_syssighandler (cfg : MemCfg) (p : Pcb) (sig : Int)
    (new_handler : Nat) (old_handler_ptr : Nat) : Int × Pcb × Option Nat :=
  if h : sig < 0 ∨ 31 ≤ sig then (-1, p, none)
  else if new_handler ≠ 0 ∧ ¬ valid_ptr cfg new_handler then (-2, p, none)
  else if ¬ valid_ptr cfg old_handler_ptr then (-3, p, none)
  else
    let i : Fin 32 := ⟨sig.toNat, by omega⟩
    (0, { p with signal_table := Function.update p.signal_table i new_handler },
     some (p.signal_table i))

/-! PCB table and PID policy (disp.c: kdispinit, get_unused_pcb, get_pcb,
stop). -/

/-- Two's-complement wraparound of a 32-bit signed int, the behaviour the
overflow check in get_unused_pcb relies on. -/
def wrap32 (x : Int) : Int := (x + 2 ^ 31) % 2 ^ 32 - 2 ^ 31

/-- The PID computation of get_unused_pcb (disp.c): new_pid = prev_pid +
PCB_TABLE_SIZE; on wraparound (new_pid < 1) fall back to prev_pid %
PCB_TABLE_SIZE (C truncated remainder); `none` models the
assert(new_pid >= 1) halting the kernel. -/
def reuse_pid (prev_pid : Int) : Option Int :=
  let n0 := wrap32 (prev_pid + 32)
  let n1 := if n0 < 1 then Int.tmod prev_pid 32 else n0
  if 1 ≤ n1 then some n1 else none

/-- One slot of the PCB table, reduced to the fields the PID policy reads:
the stored pid and whether the slot's state is STOPPED. -/
structure Slot where
  pid : Int
  stopped : Bool
deriving DecidableEq

/-- The PCB table as seen by the PID policy. -/
structure PidTable where
  slots : Fin 32 → Slot
deriving DecidableEq

/-- kdispinit (disp.c): slot i starts with pid i+1 and STOPPED (every slot
is pushed on the stopped queue at boot). -/
def init_table : PidTable :=
  ⟨fun i => { pid := (i : Nat) + 1, stopped := true }⟩

/-- The transitions that change a slot's pid or STOPPED-ness:
`reuse` is the get_unused_pcb-then-ready path of create (a stopped slot is
dequeued from the stopped queue, its pid is advanced by reuse_pid, and the
created process is readied), and `stop` is the stop() path of cleanup (the
slot's state returns to STOPPED, the pid untouched). -/
inductive PidStep : PidTable → PidTable → Prop
  | reuse (t : PidTable) (i : Fin 32) (pid' : Int)
      (hstopped : (t.slots i).stopped = true)
      (hpid : reuse_pid (t.slots i).pid = some pid') :
      PidStep t ⟨Function.update t.slots i { pid := pid', stopped := false }⟩
  | stop (t : PidTable) (i : Fin 32) :
      PidStep t ⟨Function.update t.slots i { pid := (t.slots i).pid, stopped := true }⟩

/-- The PCB tables reachable from boot through create/stop transitions. -/
inductive PidReachable : PidTable → Prop
  | init : PidReachable init_table
  | step {t t' : PidTable} : PidReachable t → PidStep t t' → PidReachable t'

/-- get_pcb (disp.c): for pid ≥ 1 index slot (pid−1) % PCB_TABLE_SIZE and
return it (as its index, standing for the pointer) iff the stored pid
matches and the slot is not STOPPED.  The argument is a PID_t, i.e.
unsigned. -/
def get_pcb (t : PidTable) (pid : Nat) : Option (Fin 32) :=
  if pid ≥ 1 then
    let i : Fin 32 := ⟨(pid - 1) % 32, Nat.mod_lt _ (by norm_num)⟩
    if (t.slots i).pid = (pid : Int) ∧ (t.slots i).stopped = false then some i
    else none
  else none

/-- The core PID invariant: every slot's stored pid is at least 1 and
congruent to its slot index + 1 modulo PCB_TABLE_SIZE (the pid generation
scheme only ever adds multiples of 32 or reduces modulo 32). -/
def pid_inv (t : PidTable) : Prop :=
  ∀ i : Fin 32, 1 ≤ (t.slots i).pid ∧
    (t.slots i).pid % 32 = (((i : Nat) : Int) + 1) % 32

/-! Keyboard driver upper half (kbd.c). -/

/-- The keyboard driver state that kbdread and transfer_to_read_buf touch.
`kbd_buf` is the ring buffer's content in arrival order (the 5-slot
circular buffer with one empty slot holds at most 4 chars and is
observationally this FIFO); `app_writes` records the writes
`read_buf[chars_transferred] = c` into the caller's buffer as
(index, char) pairs in order; `hw_enabled` stands for the keyboard
hardware/interrupt enable that handle_eof turns off. -/
structure KbdState where
  kbd_buf : List Nat
  eof : Nat
  eof_flag : Bool
  read_buflen : Nat
  chars_transferred : Nat
  read_finished : Bool
  app_writes : List (Nat × Nat)
  hw_enabled : Bool
deriving DecidableEq

/-- copy_char_to_read_buf (kbd.c): write the char at index
chars_transferred of the caller's buffer, bump the count, and report
whether the read is fully serviced (count reached buflen, or the char was
the newline 10). -/
def copy_char_to_read_buf (st : KbdState) (c : Nat) : Bool × KbdState :=
  let st' := { st with app_writes := st.app_writes ++ [(st.chars_transferred, c)],
                       chars_transferred := st.chars_transferred + 1 }
  (st'.chars_transferred = st'.read_buflen ∨ c = 10, st')

/-- handle_eof (kbd.c): disable the keyboard hardware and set the EOF
flag. -/
def handle_eof (st : KbdState) : KbdState :=
  { st with eof_flag := true, hw_enabled := false }

/-- transfer_to_read_buf (kbd.c): drain the ring buffer into the caller's
buffer; an EOF char triggers handle_eof and finishes the read, a copied
char finishes it when the buffer is full or the char was a newline.
Returns 1 (true) iff the read has been fully serviced.  The recursion is
over the ring-buffer content, advanced one char per iteration as the
source advances kbd_buf_tail. -/
def transfer_go : List Nat → KbdState → Bool × KbdState
  | [], st => (false, { st with kbd_buf := [] })
  | c :: rest, st =>
    if c = st.eof then (true, handle_eof { st with kbd_buf := rest })
    else
      let r := copy_char_to_read_buf { st with kbd_buf := rest } c
      if r.1 then (true, r.2) else transfer_go rest r.2

def transfer_to_read_buf (st : KbdState) : Bool × KbdState :=
  transfer_go st.kbd_buf st

/-- kbdread (kbd.c): if EOF was previously received, return 0 immediately
(and on every subsequent read).  Otherwise record the caller's buffer and
length, attempt the transfer — discarding transfer_to_read_buf's
fully-serviced indication — and return buflen if exactly buflen chars have
been transferred, else the block sentinel −2 (the dispatcher then blocks
the caller with reason READ). -/
def kbdread (st : KbdState) (buflen : Nat) : Int × KbdState :=
  if st.eof_flag then (0, st)
  else
    let st1 := { st with read_buflen := buflen }
    let r := transfer_to_read_buf st1
    if r.2.chars_transferred = buflen then ((buflen : Int), r.2)
    else (-2, { r.2 with read_finished := false })

/-! Concrete states used by the closed evaluations below. -/

/-- A process (pid 2) blocked on recv(from = 1): RECEIVER on process 1. -/
def recvBlockedOn1 : Pcb :=
  { mkPcb 2 with state := ProcessState.blocked, blocked_on := some 1,
                 blocked_queue := BlockedQueue.receiver }

/-- A process (pid 1) blocked on send(to = 2) of the word 0x01000002. -/
def sendBlockedOn2 : Pcb :=
  { mkPcb 1 with state := ProcessState.blocked, blocked_on := some 2,
                 blocked_queue := BlockedQueue.sender, ipc_num := 16777218 }

/-- A process (pid 7) blocked on syswait for process 3. -/
def waiterOn3 : Pcb :=
  { mkPcb 7 with state := ProcessState.blocked, blocked_on := some 3,
                 blocked_queue := BlockedQueue.wait }

/-- The keyboard state with 'a' (0x61) and the default EOF char 0x04
buffered, before any read. -/
def kbdWithAThenEof : KbdState :=
  { kbd_buf := [97, 4], eof := 4, eof_flag := false, read_buflen := 0,
    chars_transferred := 0, read_finished := false, app_writes := [],
    hw_enabled := true }

/-- A concrete spliced signal-delivery frame. -/
def sigFrameEx : SigFrame :=
  { handler := 50, cntx := 900, last_signal_delivered := -1,
    saved_result_code := 7 }

/-- A process with signals 3 and 5 pending (bitmask 40), signal 4 the last
delivered, and one spliced frame on its stack. -/
def pcbWithFrame : Pcb :=
  { mkPcb 3 with frames := [sigFrameEx], pending_signals := 40,
                 last_signal_delivered := 4 }

/-- A process (pid 4) blocked as a Sender on process 2, with every signal
handler installed at address 50. -/
def blockedSenderEx : Pcb :=
  { mkPcb 4 with state := ProcessState.blocked,
                 blocked_queue := BlockedQueue.sender, blocked_on := some 2,
                 signal_table := fun _ => 50 }

/-- The kernel environment around blockedSenderEx: it is the sole resident
of its target's Sender queue. -/
def sigEnvEx : SignalEnv :=
  { target_queue := [blockedSenderEx], receive_any_queue := [],
    sleep_queue := [], chars_transferred := 0, ready_queues := empty_ready }

end MiniOS

namespace MiniOS

/-! First theorems: the poll null-dereference (claim C7). -/

/-- C7: the delta list's poll dereferences the removed node's next pointer
before any null check: for every delta list whose head is its only
remaining node, poll evaluates `proc->next->key` with `proc->next` equal to
null (the Boolean in poll's result records exactly this unguarded
dereference), so the removal is not guarded for single-element lists. -/
theorem poll_null_deref_on_singleton (p : Pcb) :
    poll [p] = some (p, [], true) := by
  simp [poll]

/-- C10: service_syssleep with milliseconds equal to 0 neither blocks the
caller nor touches the delta list nor writes the caller's result_code — the
dispatcher state is returned unchanged — so the value the context switcher
hands back to user mode on resumption is the result_code left by the
caller's previous kernel interaction. -/
theorem syssleep_zero_noop (st : DispState) :
    service_syssleep 0 st = st ∧
    (service_syssleep 0 st).current.result_code = st.current.result_code := by
  constructor <;> simp [service_syssleep]

/-- C1 fails on the code: msg.c copies the one-word message with
strncpy(... , BUFFER_SIZE), which stops at the first zero byte of the word
and zero-fills the rest, so a word with a zero byte below a non-zero byte
is truncated.  At the sender word 0x01000002 (= 16777218, little-endian
bytes 02 00 00 01) every completed rendezvous — send finding the receiver
blocked on a matching recv, and recv finding a blocked matching sender —
deposits 0x00000002 (= 2) in the receiver's buffer instead of the word
sent. -/
theorem ipc_strncpy_truncates_word :
    (send { send_proc := mkPcb 1
            recv_proc := recvBlockedOn1
            send_buf := 16777218
            sp_receivers := [recvBlockedOn1]
            rp_senders := []
            receive_any_queue := [] }).result = 0 ∧
    (send { send_proc := mkPcb 1
            recv_proc := recvBlockedOn1
            send_buf := 16777218
            sp_receivers := [recvBlockedOn1]
            rp_senders := []
            receive_any_queue := [] }).num_cell = some 2 ∧
    (recv { recv_proc := mkPcb 2
            send_proc := some sendBlockedOn2
            recv_senders := [sendBlockedOn2]
            sp_receivers := []
            receive_any_queue := [] }).num_cell = some 2 ∧
    (2 : Nat) ≠ 16777218 := by
  decide

/-- C5 fails on the code: kbdread discards transfer_to_read_buf's
fully-serviced indication and returns without blocking only when exactly
buflen chars were transferred.  With 'a' (0x61) and the EOF char 0x04
already buffered, read(fd, buf, 10) transfers the single char 'a', consumes
the EOF (setting the EOF flag and disabling the keyboard hardware), and
then returns the block sentinel −2 — blocking the caller — instead of
returning 1 as the specification requires; a read issued after the EOF flag
is set does return 0. -/
theorem kbdread_blocks_on_buffered_eof :
    (kbdread kbdWithAThenEof 10).1 = -2 ∧
    (kbdread kbdWithAThenEof 10).2.app_writes = [(0, 97)] ∧
    (kbdread kbdWithAThenEof 10).2.eof_flag = true ∧
    (kbdread kbdWithAThenEof 10).2.hw_enabled = false ∧
    (kbdread ((kbdread kbdWithAThenEof 10).2) 10).1 = 0 := by
  decide

/-- C2 as stated is false on the code: cleanup wakes the residents of the
terminating process's WAIT queue with result_code 0, not −1 (0 is the
successful syswait return, consistent with the wait(pid) contract).  A
waiter with pid 7 is woken with 0. -/
theorem cleanup_wakes_waiter_with_zero :
    (cleanup [] [] [waiterOn3] [] 5).woken.map
        (fun p => (p.pid, p.result_code)) = [(7, 0)] ∧
    ((0 : Int) ≠ -1) := by
  decide

end MiniOS

namespace MiniOS

/-! Helper lemmas about drain (cleanup's queue-draining loop). -/

theorem drain_fst_eq (q : List Pcb) (c : Int) :
    (drain q c).1 = q.map (fun p => unblock p c) := by
  induction q with
  | nil => simp [drain]
  | cons p rest ih => simp [drain, ih]

theorem drain_snd_eq (q : List Pcb) (c : Int) : (drain q c).2 = [] := by
  induction q with
  | nil => simp [drain]
  | cons p rest ih => simp [drain, ih]

/-- C2 amended: when a process terminates, cleanup drains all three of its
blocked queues; every resident of the Sender and Receiver queues is woken
(made Ready) with result_code −1, and every resident of the Waiter queue is
woken with result_code 0. -/
theorem cleanup_drains_blocked_queues
    (senders receivers waiters raq : List Pcb) (upc : Int) :
    (cleanup senders receivers waiters raq upc).senders = [] ∧
    (cleanup senders receivers waiters raq upc).receivers = [] ∧
    (cleanup senders receivers waiters raq upc).waiters = [] ∧
    (∀ p ∈ senders, ∃ q ∈ (cleanup senders receivers waiters raq upc).woken,
        q.pid = p.pid ∧ q.result_code = -1 ∧ q.state = ProcessState.ready) ∧
    (∀ p ∈ receivers, ∃ q ∈ (cleanup senders receivers waiters raq upc).woken,
        q.pid = p.pid ∧ q.result_code = -1 ∧ q.state = ProcessState.ready) ∧
    (∀ p ∈ waiters, ∃ q ∈ (cleanup senders receivers waiters raq upc).woken,
        q.pid = p.pid ∧ q.result_code = 0 ∧ q.state = ProcessState.ready) := by
  have hwoken : ∀ p ∈ senders.map (fun p => unblock p (-1)) ++
      receivers.map (fun p => unblock p (-1)) ++ waiters.map (fun p => unblock p 0),
      p ∈ (cleanup senders receivers waiters raq upc).woken := by
    intro p hp
    simp only [cleanup, drain_fst_eq]
    split
    · simp only [List.append_assoc, List.mem_append] at hp ⊢
      tauto
    · simpa using hp
  refine ⟨?_, ?_, ?_, ?_, ?_, ?_⟩
  · simp [cleanup, drain_snd_eq]; split <;> simp
  · simp [cleanup, drain_snd_eq]; split <;> simp
  · simp [cleanup, drain_snd_eq]; split <;> simp
  · intro p hp
    refine ⟨unblock p (-1), hwoken _ ?_, by simp [unblock, readyFields]⟩
    simp only [List.mem_append, List.mem_map]
    exact Or.inl (Or.inl ⟨p, hp, rfl⟩)
  · intro p hp
    refine ⟨unblock p (-1), hwoken _ ?_, by simp [unblock, readyFields]⟩
    simp only [List.mem_append, List.mem_map]
    exact Or.inl (Or.inr ⟨p, hp, rfl⟩)
  · intro p hp
    refine ⟨unblock p 0, hwoken _ ?_, by simp [unblock, readyFields]⟩
    simp only [List.mem_append, List.mem_map]
    exact Or.inr ⟨p, hp, rfl⟩

/-- Witness for cleanup_drains_blocked_queues: at a concrete state with one
blocked sender (pid 4) and one waiter (pid 7), the sender is woken with −1. -/
theorem cleanup_drains_blocked_queues_witness :
    ∃ q ∈ (cleanup [mkPcb 4] [] [mkPcb 7] [] 5).woken,
      q.pid = (mkPcb 4).pid ∧ q.result_code = -1 ∧ q.state = ProcessState.ready :=
  (cleanup_drains_blocked_queues [mkPcb 4] [] [mkPcb 7] [] 5).2.2.2.1
    (mkPcb 4) (by decide)

/-- C9: signal handler installation round-trips.  For every signal s in
0..30, every handler pointer h that is NULL or valid, valid output
pointers, and a signal-table entry that is itself NULL or valid (the only
values syssighandler ever stores there), executing
sighandler(s, h, &old) followed by sighandler(s, old, &h2) returns 0 both
times, leaves the signal table exactly as before the first call, and
yields h2 = h. -/
theorem sighandler_round_trip (cfg : MemCfg) (p : Pcb) (s : Int)
    (hs : 0 ≤ s ∧ s < 31) (h oldPtr h2Ptr : Nat)
    (hh : h = 0 ∨ valid_ptr cfg h = true)
    (holdPtr : valid_ptr cfg oldPtr = true)
    (h2Ptrv : valid_ptr cfg h2Ptr = true)
    (htab : p.signal_table ⟨s.toNat, by omega⟩ = 0 ∨
            valid_ptr cfg (p.signal_table ⟨s.toNat, by omega⟩) = true) :
    (service_syssighandler cfg p s h oldPtr).1 = 0 ∧
    (service_syssighandler cfg p s h oldPtr).2.2 =
      some (p.signal_table ⟨s.toNat, by omega⟩) ∧
    (service_syssighandler cfg (service_syssighandler cfg p s h oldPtr).2.1
        s (p.signal_table ⟨s.toNat, by omega⟩) h2Ptr).1 = 0 ∧
    (service_syssighandler cfg (service_syssighandler cfg p s h oldPtr).2.1
        s (p.signal_table ⟨s.toNat, by omega⟩) h2Ptr).2.1.signal_table =
      p.signal_table ∧
    (service_syssighandler cfg (service_syssighandler cfg p s h oldPtr).2.1
        s (p.signal_table ⟨s.toNat, by omega⟩) h2Ptr).2.2 = some h := by
  have hs32 : s.toNat < 32 := by omega
  have step : ∀ (q : Pcb) (newh optr : Nat),
      (newh = 0 ∨ valid_ptr cfg newh = true) → valid_ptr cfg optr = true →
      service_syssighandler cfg q s newh optr =
        (0, { q with signal_table :=
                Function.update q.signal_table ⟨s.toNat, hs32⟩ newh },
         some (q.signal_table ⟨s.toNat, hs32⟩)) := by
    intro q newh optr hnewh hoptr
    have hrange : ¬(s < 0 ∨ 31 ≤ s) := by omega
    have h1 : ¬(newh ≠ 0 ∧ ¬ valid_ptr cfg newh = true) := by
      rcases hnewh with h0 | hv
      · intro hc; exact hc.1 h0
      · intro hc; exact hc.2 hv
    simp only [service_syssighandler, dif_neg hrange, if_neg h1,
      if_neg (not_not_intro hoptr)]
  rw [step p h oldPtr hh holdPtr]
  rw [step _ (p.signal_table ⟨s.toNat, hs32⟩) h2Ptr htab h2Ptrv]
  refine ⟨rfl, rfl, rfl, ?_, ?_⟩
  · show Function.update
        (Function.update p.signal_table ⟨s.toNat, hs32⟩ h) ⟨s.toNat, hs32⟩
        (p.signal_table ⟨s.toNat, hs32⟩) = p.signal_table
    rw [Function.update_idem, Function.update_eq_self]
  · show some (Function.update p.signal_table ⟨s.toNat, hs32⟩ h ⟨s.toNat, hs32⟩)
        = some h
    rw [Function.update_same]

/-- Witness for sighandler_round_trip: a concrete round trip through signal
5 with handler address 50 under the memory layout (hole 1000..2000, max
3000). -/
theorem sighandler_round_trip_witness :
    (service_syssighandler ⟨1000, 2000, 3000⟩ (mkPcb 1) (5 : Int) 50 60).1 = 0 ∧
    (service_syssighandler ⟨1000, 2000, 3000⟩ (mkPcb 1) (5 : Int) 50 60).2.2 =
      some ((mkPcb 1).signal_table ⟨(5 : Int).toNat, by omega⟩) ∧
    (service_syssighandler ⟨1000, 2000, 3000⟩
        (service_syssighandler ⟨1000, 2000, 3000⟩ (mkPcb 1) (5 : Int) 50 60).2.1
        (5 : Int) ((mkPcb 1).signal_table ⟨(5 : Int).toNat, by omega⟩) 70).1 = 0 ∧
    (service_syssighandler ⟨1000, 2000, 3000⟩
        (service_syssighandler ⟨1000, 2000, 3000⟩ (mkPcb 1) (5 : Int) 50 60).2.1
        (5 : Int) ((mkPcb 1).signal_table ⟨(5 : Int).toNat, by omega⟩) 70).2.1.signal_table =
      (mkPcb 1).signal_table ∧
    (service_syssighandler ⟨1000, 2000, 3000⟩
        (service_syssighandler ⟨1000, 2000, 3000⟩ (mkPcb 1) (5 : Int) 50 60).2.1
        (5 : Int) ((mkPcb 1).signal_table ⟨(5 : Int).toNat, by omega⟩) 70).2.2 = some 50 :=
  sighandler_round_trip ⟨1000, 2000, 3000⟩ (mkPcb 1) 5 (by omega) 50 60 70
    (Or.inr (by decide)) (by decide) (by decide) (Or.inl (by decide))

/-! PID policy (claim C8): the invariant is preserved by every create/stop
transition. -/

theorem wrap32_emod_32 (x : Int) : wrap32 x % 32 = x % 32 := by
  unfold wrap32
  omega

theorem pid_inv_init : pid_inv init_table := by
  intro i
  refine ⟨by simp [init_table], by simp [init_table]⟩

theorem pid_inv_step {t t' : PidTable} (h : pid_inv t) (hs : PidStep t t') :
    pid_inv t' := by
  cases hs with
  | reuse i pid' hstopped hpid =>
    intro j
    rcases eq_or_ne j i with rfl | hij
    · have hj := h j
      have key : 1 ≤ pid' ∧ pid' % 32 = (t.slots j).pid % 32 := by
        simp only [reuse_pid] at hpid
        by_cases hlt : wrap32 ((t.slots j).pid + 32) < 1
        · rw [if_pos hlt] at hpid
          split at hpid
          next hcond =>
            obtain rfl := (Option.some.inj hpid).symm
            have htm : Int.tmod (t.slots j).pid 32 = (t.slots j).pid % 32 :=
              Int.tmod_eq_emod (by omega) (by norm_num)
            refine ⟨hcond, ?_⟩
            rw [htm, Int.emod_emod_of_dvd _ dvd_rfl]
          next hcond => exact absurd hpid (by simp)
        · rw [if_neg hlt] at hpid
          split at hpid
          next hcond =>
            obtain rfl := (Option.some.inj hpid).symm
            refine ⟨hcond, ?_⟩
            rw [wrap32_emod_32]
            omega
          next hcond => exact absurd hpid (by simp)
      refine ⟨?_, ?_⟩
      · simpa [Function.update_same] using key.1
      · show (Function.update t.slots j { pid := pid', stopped := false } j).pid % 32 = _
        rw [Function.update_same]
        rw [key.2, hj.2]
    · have hj := h j
      simpa [Function.update_noteq hij] using hj
  | stop i =>
    intro j
    rcases eq_or_ne j i with rfl | hij
    · have hj := h j
      simpa [Function.update_same] using hj
    · have hj := h j
      simpa [Function.update_noteq hij] using hj

/-- C8: PID policy invariant.  Slot reuse advances a slot's pid by
PCB_TABLE_SIZE = 32, falling back to pid % 32 on wraparound (reuse_pid), so
in every reachable PCB table every slot's pid is ≥ 1 and congruent to its
index + 1 mod 32 (pid_inv, which makes table[(pid−1) mod 32] the unique
possible home of a pid); the pids of non-stopped slots are pairwise
distinct; and get_pcb pid is non-null exactly when some non-stopped slot
stores pid. -/
theorem pid_policy_invariant (t : PidTable) (hreach : PidReachable t) :
    pid_inv t ∧
    (∀ i j : Fin 32, i ≠ j → (t.slots i).stopped = false →
      (t.slots j).stopped = false → (t.slots i).pid ≠ (t.slots j).pid) ∧
    (∀ pid : Nat, (get_pcb t pid).isSome ↔
      ∃ i : Fin 32, (t.slots i).stopped = false ∧ (t.slots i).pid = (pid : Int)) := by
  have hinv : pid_inv t := by
    induction hreach with
    | init => exact pid_inv_init
    | step _ hs ih => exact pid_inv_step ih hs
  refine ⟨hinv, ?_, ?_⟩
  · intro i j hij _ _ heq
    have hi := (hinv i).2
    have hj := (hinv j).2
    rw [heq, hj] at hi
    have hib : (i : Nat) < 32 := i.isLt
    have hjb : (j : Nat) < 32 := j.isLt
    have hvij : (i : Nat) = (j : Nat) := by omega
    exact hij (Fin.ext hvij)
  · intro pid
    constructor
    · intro hsome
      simp only [get_pcb] at hsome
      by_cases hp : pid ≥ 1
      · rw [if_pos hp] at hsome
        split at hsome
        · next hcond => exact ⟨_, hcond.2, hcond.1⟩
        · simp at hsome
      · rw [if_neg hp] at hsome
        simp at hsome
    · rintro ⟨j, hstop, hpid⟩
      have h1 : 1 ≤ (pid : Int) := hpid ▸ (hinv j).1
      have hp : 1 ≤ pid := by exact_mod_cast h1
      have hcong := (hinv j).2
      rw [hpid] at hcong
      have hcongN : pid % 32 = ((j : Nat) + 1) % 32 := by exact_mod_cast hcong
      have hj32 : (j : Nat) < 32 := j.isLt
      have hidx : (pid - 1) % 32 = (j : Nat) := by omega
      simp only [get_pcb, hidx, Fin.eta, ge_iff_le, hp, if_true]
      rw [if_pos ⟨hpid, hstop⟩]
      simp

/-- Witness for pid_policy_invariant: the boot-time table kdispinit builds
is reachable and satisfies the invariant. -/
theorem pid_policy_invariant_witness :
    pid_inv init_table ∧
    (∀ i j : Fin 32, i ≠ j → (init_table.slots i).stopped = false →
      (init_table.slots j).stopped = false →
      (init_table.slots i).pid ≠ (init_table.slots j).pid) ∧
    (∀ pid : Nat, (get_pcb init_table pid).isSome ↔
      ∃ i : Fin 32, (init_table.slots i).stopped = false ∧
        (init_table.slots i).pid = (pid : Int)) :=
  pid_policy_invariant init_table PidReachable.init

/-! Signal delivery (claim C4): the descending bitmask scan of
handle_pending_signals picks the highest pending signal. -/

theorem find_highest_spec (m : Nat) (n : Nat) :
    (find_highest_from m n = -1 ∧ ∀ j, j ≤ n → is_signal_bit_set m j = false) ∨
    (∃ s : Nat, s ≤ n ∧ find_highest_from m n = (s : Int) ∧
      is_signal_bit_set m s = true ∧
      ∀ j, s < j → j ≤ n → is_signal_bit_set m j = false) := by
  induction n with
  | zero =>
    by_cases h : is_signal_bit_set m 0
    · right
      exact ⟨0, le_refl 0, by simp [find_highest_from, h], h, by omega⟩
    · left
      refine ⟨by simp [find_highest_from, h], ?_⟩
      intro j hj
      interval_cases j
      simpa using h
  | succ n ih =>
    by_cases h : is_signal_bit_set m (n + 1)
    · right
      refine ⟨n + 1, le_refl _, by simp [find_highest_from, h], h, ?_⟩
      intro j hlt hle
      omega
    · have hstep : find_highest_from m (n + 1) = find_highest_from m n := by
        simp [find_highest_from, h]
      rcases ih with ⟨hfind, hall⟩ | ⟨s, hsn, hfind, hset, habove⟩
      · left
        refine ⟨hstep.trans hfind, ?_⟩
        intro j hj
        rcases Nat.lt_or_ge j (n + 1) with hlt | hge
        · exact hall j (by omega)
        · have : j = n + 1 := by omega
          subst this
          simpa using h
      · right
        refine ⟨s, by omega, hstep.trans hfind, hset, ?_⟩
        intro j hlt hle
        rcases Nat.lt_or_ge j (n + 1) with hj | hj
        · exact habove j hlt (by omega)
        · have : j = n + 1 := by omega
          subst this
          simpa using h

/-- C4: before each resumption handle_pending_signals delivers at most one
signal — the highest-numbered pending signal s — and only when s exceeds
last_signal_delivered: it clears pending bit s, splices onto the process
stack a frame recording the handler, the old stack pointer, the old
last_signal_delivered and the old result_code, lowers esp by the frame
size, and sets last_signal_delivered to s; service_syssigreturn restores
the saved last_signal_delivered and result_code from the frame.
Consequently, whenever a delivery happens it strictly raises
last_signal_delivered, so while a handler for signal k runs no signal
s ≤ k is dispatched until sigreturn lowers last_signal_delivered back. -/
theorem signal_delivery_priority (p : Pcb) :
    (handle_pending_signals p = p ∨
      ∃ s : Nat, s < 32 ∧ is_signal_bit_set p.pending_signals s = true ∧
        (∀ j, s < j → j < 32 → is_signal_bit_set p.pending_signals j = false) ∧
        (s : Int) > p.last_signal_delivered ∧
        handle_pending_signals p =
          { p with
              pending_signals := clear_signal_bit p.pending_signals s
              esp := p.esp - sdcSize
              frames :=
                { handler := p.signal_table ⟨s % 32, Nat.mod_lt _ (by norm_num)⟩
                  cntx := p.esp
                  last_signal_delivered := p.last_signal_delivered
                  saved_result_code := p.result_code } :: p.frames
              last_signal_delivered := (s : Int) }) ∧
    (∀ f rest, p.frames = f :: rest →
      service_syssigreturn p =
        some { p with esp := f.cntx, result_code := f.saved_result_code,
                      last_signal_delivered := f.last_signal_delivered,
                      frames := rest }) ∧
    (handle_pending_signals p ≠ p →
      (handle_pending_signals p).last_signal_delivered >
        p.last_signal_delivered) := by
  have main : handle_pending_signals p = p ∨
      ∃ s : Nat, s < 32 ∧ is_signal_bit_set p.pending_signals s = true ∧
        (∀ j, s < j → j < 32 → is_signal_bit_set p.pending_signals j = false) ∧
        (s : Int) > p.last_signal_delivered ∧
        handle_pending_signals p =
          { p with
              pending_signals := clear_signal_bit p.pending_signals s
              esp := p.esp - sdcSize
              frames :=
                { handler := p.signal_table ⟨s % 32, Nat.mod_lt _ (by norm_num)⟩
                  cntx := p.esp
                  last_signal_delivered := p.last_signal_delivered
                  saved_result_code := p.result_code } :: p.frames
              last_signal_delivered := (s : Int) } := by
    rcases find_highest_spec p.pending_signals 31 with ⟨hfind, hall⟩ |
      ⟨s, hs31, hfind, hset, habove⟩
    · left
      simp [handle_pending_signals, hfind]
    · by_cases hgt : (s : Int) > p.last_signal_delivered
      · right
        refine ⟨s, by omega, hset, ?_, hgt, ?_⟩
        · intro j hlt hle
          exact habove j hlt (by omega)
        · simp only [handle_pending_signals, hfind]
          rw [if_neg (by omega), if_pos hgt]
          simp
      · left
        simp only [handle_pending_signals, hfind]
        rw [if_neg (by omega), if_neg hgt]
  refine ⟨main, ?_, ?_⟩
  · intro f rest hf
    simp [service_syssigreturn, hf]
  · intro hne
    rcases main with heq | ⟨s, _, _, _, hgt, heqd⟩
    · exact absurd heq hne
    · rw [heqd]
      exact hgt

/-- Witness for signal_delivery_priority: sigreturn on a process carrying
one concrete spliced frame restores the frame's saved values. -/
theorem signal_delivery_priority_witness :
    service_syssigreturn pcbWithFrame =
      some { pcbWithFrame with
              esp := sigFrameEx.cntx
              result_code := sigFrameEx.saved_result_code
              last_signal_delivered := sigFrameEx.last_signal_delivered
              frames := [] } :=
  (signal_delivery_priority pcbWithFrame).2.1 sigFrameEx [] rfl

/-! Unblocking by signal (claim C3).  First: delta_remove really returns
the absolute remaining delay, i.e. the sum of the keys from the head
through the removed node. -/

theorem delta_remove_walk_spec (rest : List Pcb) (acc : Int) (pid : Nat)
    (hmem : pid ∈ rest.map Pcb.pid) :
    ∃ q', delta_remove_walk rest acc pid =
      some (acc + keysThrough rest pid, q') := by
  induction rest generalizing acc with
  | nil => simp at hmem
  | cons curr rest2 ih =>
    by_cases hc : curr.pid = pid
    · cases rest2 with
      | nil => exact ⟨[], by simp [delta_remove_walk, hc, keysThrough]⟩
      | cons nextp rest3 =>
        exact ⟨{ nextp with key := nextp.key + curr.key } :: rest3,
          by simp [delta_remove_walk, hc, keysThrough]⟩
    · have hmem2 : pid ∈ rest2.map Pcb.pid := by
        simp only [List.map_cons, List.mem_cons] at hmem
        rcases hmem with h | h
        · exact absurd h.symm hc
        · exact h
      obtain ⟨q', hq'⟩ := ih (acc + curr.key) hmem2
      refine ⟨curr :: q', ?_⟩
      simp [delta_remove_walk, hc, hq', keysThrough, add_assoc]

theorem delta_remove_spec (list : List Pcb) (pid : Nat)
    (hmem : pid ∈ list.map Pcb.pid) :
    ∃ q', delta_remove list pid = some (keysThrough list pid, q') := by
  cases list with
  | nil => simp at hmem
  | cons headp rest =>
    by_cases hh : headp.pid = pid
    · cases rest with
      | nil => exact ⟨[], by simp [delta_remove, hh, poll, keysThrough]⟩
      | cons nextp rest2 =>
        exact ⟨{ nextp with key := nextp.key + headp.key } :: rest2,
          by simp [delta_remove, hh, poll, keysThrough]⟩
    · have hmem2 : pid ∈ rest.map Pcb.pid := by
        simp only [List.map_cons, List.mem_cons] at hmem
        rcases hmem with h | h
        · exact absurd h.symm hh
        · exact h
      obtain ⟨q', hq'⟩ := delta_remove_walk_spec rest headp.key pid hmem2
      refine ⟨headp :: q', ?_⟩
      simp [delta_remove, hh, hq', keysThrough]

/-- C3: a signal n posted by syskill to a process blocked on a system call.
If the target's handler for n is non-null, the target is removed from its
blocked queue, readied (state Ready, enqueued on its ready queue), and its
result_code set to: −666 when blocked as Sender, Receiver, ReceiveAny or
Waiter; the absolute remaining ticks times TIME_SLICE (the remaining
milliseconds) when blocked on Sleep; and, when blocked on Read, the number
of chars already transferred if that is greater than 0, else −666.  If the
handler for n is null, signal returns 0 and the target, its queues and its
result_code are all unchanged. -/
theorem syskill_unblocks_blocked_target (env : SignalEnv) (p : Pcb) (n : Int)
    (hblocked : p.state = ProcessState.blocked)
    (hn : 0 ≤ n ∧ n < 32)
    (hpid : p.pid ≠ 0)
    (hsleep : p.blocked_queue = BlockedQueue.sleepq →
      p.pid ∈ env.sleep_queue.map Pcb.pid)
    (hq : p.blocked_queue ≠ BlockedQueue.noneq)
    (hchars : 0 ≤ env.chars_transferred) :
    (p.signal_table ⟨n.toNat, by omega⟩ = 0 →
      signal env p n = some (0, p, env)) ∧
    (p.signal_table ⟨n.toNat, by omega⟩ ≠ 0 →
      ∃ p' env', signal env p n = some (0, p', env') ∧
        p'.state = ProcessState.ready ∧
        p'.blocked_queue = BlockedQueue.noneq ∧
        p'.blocked_on = none ∧
        p' ∈ env'.ready_queues p.priority ∧
        ((p.blocked_queue = BlockedQueue.sender ∨
          p.blocked_queue = BlockedQueue.receiver ∨
          p.blocked_queue = BlockedQueue.wait) →
            p'.result_code = -666 ∧
            env'.target_queue = queue_remove env.target_queue p.pid) ∧
        (p.blocked_queue = BlockedQueue.receiveAny →
            p'.result_code = -666 ∧
            env'.receive_any_queue =
              queue_remove env.receive_any_queue p.pid) ∧
        (p.blocked_queue = BlockedQueue.sleepq →
            p'.result_code = keysThrough env.sleep_queue p.pid * TIME_SLICE ∧
            delta_remove env.sleep_queue p.pid =
              some (keysThrough env.sleep_queue p.pid, env'.sleep_queue)) ∧
        (p.blocked_queue = BlockedQueue.readq →
            p'.result_code =
              if 0 < env.chars_transferred then env.chars_transferred
              else -666)) := by
  have hn32 : n.toNat < 32 := by omega
  constructor
  · intro h0
    have hnot : ¬ p.signal_table ⟨n.toNat, hn32⟩ ≠ 0 := not_not_intro h0
    simp only [signal, dif_pos hn, if_neg hnot]
  · intro hne
    cases hbq : p.blocked_queue with
    | sender =>
      simp only [signal, dif_pos hn, if_pos hne, unblock_on_signal, hblocked, hbq]
      simp only [reduceIte]
      exact ⟨_, _, rfl, by simp [readyFields], by simp [readyFields],
        by simp [readyFields],
        by simp [ready, readyFields, hpid, Function.update_same],
        fun _ => ⟨by simp [readyFields], by simp⟩, by simp, by simp, by simp⟩
    | receiver =>
      simp only [signal, dif_pos hn, if_pos hne, unblock_on_signal, hblocked, hbq]
      simp only [reduceIte]
      exact ⟨_, _, rfl, by simp [readyFields], by simp [readyFields],
        by simp [readyFields],
        by simp [ready, readyFields, hpid, Function.update_same],
        fun _ => ⟨by simp [readyFields], by simp⟩, by simp, by simp, by simp⟩
    | wait =>
      simp only [signal, dif_pos hn, if_pos hne, unblock_on_signal, hblocked, hbq]
      simp only [reduceIte]
      exact ⟨_, _, rfl, by simp [readyFields], by simp [readyFields],
        by simp [readyFields],
        by simp [ready, readyFields, hpid, Function.update_same],
        fun _ => ⟨by simp [readyFields], by simp⟩, by simp, by simp, by simp⟩
    | receiveAny =>
      simp only [signal, dif_pos hn, if_pos hne, unblock_on_signal, hblocked, hbq]
      simp only [reduceIte]
      exact ⟨_, _, rfl, by simp [readyFields], by simp [readyFields],
        by simp [readyFields],
        by simp [ready, readyFields, hpid, Function.update_same],
        by simp, fun _ => ⟨by simp [readyFields], by simp⟩, by simp, by simp⟩
    | sleepq =>
      obtain ⟨q', hq'⟩ := delta_remove_spec env.sleep_queue p.pid (hsleep hbq)
      simp only [signal, dif_pos hn, if_pos hne, unblock_on_signal, hblocked,
        hbq, hq']
      simp only [reduceIte]
      exact ⟨_, _, rfl, by simp [readyFields], by simp [readyFields],
        by simp [readyFields],
        by simp [ready, readyFields, hpid, Function.update_same],
        by simp, by simp,
        fun _ => ⟨by simp [readyFields], by simp [hq']⟩, by simp⟩
    | readq =>
      simp only [signal, dif_pos hn, if_pos hne, unblock_on_signal, hblocked, hbq]
      simp only [reduceIte]
      refine ⟨_, _, rfl, by simp [readyFields], by simp [readyFields],
        by simp [readyFields],
        by simp [ready, readyFields, hpid, Function.update_same],
        by simp, by simp, by simp, fun _ => ?_⟩
      by_cases hc : env.chars_transferred = 0
      · simp [readyFields, hc]
      · have hpos : 0 < env.chars_transferred := by omega
        simp [readyFields, hc, hpos]
    | noneq => exact absurd hbq hq

/-- Witness for syskill_unblocks_blocked_target: signal 6 on a concrete
blocked sender with a non-null handler. -/
theorem syskill_unblocks_blocked_target_witness :
    ∃ p' env', signal sigEnvEx blockedSenderEx 6 = some (0, p', env') ∧
      p'.state = ProcessState.ready ∧
      p'.blocked_queue = BlockedQueue.noneq ∧
      p'.blocked_on = none ∧
      p' ∈ env'.ready_queues blockedSenderEx.priority ∧
      ((blockedSenderEx.blocked_queue = BlockedQueue.sender ∨
        blockedSenderEx.blocked_queue = BlockedQueue.receiver ∨
        blockedSenderEx.blocked_queue = BlockedQueue.wait) →
          p'.result_code = -666 ∧
          env'.target_queue =
            queue_remove sigEnvEx.target_queue blockedSenderEx.pid) ∧
      (blockedSenderEx.blocked_queue = BlockedQueue.receiveAny →
          p'.result_code = -666 ∧
          env'.receive_any_queue =
            queue_remove sigEnvEx.receive_any_queue blockedSenderEx.pid) ∧
      (blockedSenderEx.blocked_queue = BlockedQueue.sleepq →
          p'.result_code =
            keysThrough sigEnvEx.sleep_queue blockedSenderEx.pid * TIME_SLICE ∧
          delta_remove sigEnvEx.sleep_queue blockedSenderEx.pid =
            some (keysThrough sigEnvEx.sleep_queue blockedSenderEx.pid,
                  env'.sleep_queue)) ∧
      (blockedSenderEx.blocked_queue = BlockedQueue.readq →
          p'.result_code =
            if 0 < sigEnvEx.chars_transferred then sigEnvEx.chars_transferred
            else -666) :=
  (syskill_unblocks_blocked_target sigEnvEx blockedSenderEx 6 (by decide)
    (by norm_num) (by decide) (by decide) (by decide) (by decide)).2
    (by decide)

/-! Sleep exactness (claim C6). -/

theorem tick_singleton_sleep (p0 : Pcb) (rq : ReadyQueues) (a : Int)
    (h : 2 ≤ a) :
    tick ⟨[{ p0 with key := a }], rq⟩ = ⟨[{ p0 with key := a - 1 }], rq⟩ := by
  have hgt : ¬(a - 1 ≤ 0) := by omega
  simp [tick, tick_loop, hgt]

theorem tick_singleton_wake (p0 : Pcb) (rq : ReadyQueues) :
    tick ⟨[{ p0 with key := 1 }], rq⟩ =
      ⟨[], ready rq { p0 with key := 0, result_code := 0 }⟩ := by
  simp [tick, tick_loop]

theorem iterate_tick_singleton (p0 : Pcb) (rq : ReadyQueues) (t : Int)
    (k : Nat) (hk : (k : Int) < t) :
    tick^[k] ⟨[{ p0 with key := t }], rq⟩ =
      ⟨[{ p0 with key := t - (k : Int) }], rq⟩ := by
  induction k with
  | zero => simp
  | succ k ih =>
    have hk' : (k : Int) < t := by omega
    rw [Function.iterate_succ_apply', ih hk',
      tick_singleton_sleep p0 rq (t - (k : Int)) (by omega)]
    have harith : t - (k : Int) - 1 = t - ((k : Nat) + 1 : Nat) := by
      push_cast
      ring
    rw [harith]

/-- C6: for every ms > 0, syssleep(ms) inserts the caller into the delta
list with relative delay ⌈ms / 10⌉ ticks, marked Blocked(Sleep); with no
other sleepers and no signals, the caller stays in the delta list
(un-readied) through the first ⌈ms / 10⌉ − 1 ticks and on exactly the
⌈ms / 10⌉-th tick is removed and placed on its ready queue with
result_code 0, so sleep(k·TIME_SLICE) returns 0 after exactly k timer
ticks. -/
theorem sleep_wakes_after_exact_ticks (p : Pcb) (ms : Nat)
    (hms : 0 < ms) (hpid : p.pid ≠ 0) :
    ms_to_time_slices ms = (((ms + 9) / 10 : Nat) : Int) ∧
    sleep_call ⟨[], empty_ready⟩ p ms =
      ⟨[sleeping p (ms_to_time_slices ms)], empty_ready⟩ ∧
    (∀ k : Nat, (k : Int) < ms_to_time_slices ms →
      tick^[k] (sleep_call ⟨[], empty_ready⟩ p ms) =
        ⟨[sleeping p (ms_to_time_slices ms - (k : Int))], empty_ready⟩) ∧
    tick^[(ms_to_time_slices ms).toNat] (sleep_call ⟨[], empty_ready⟩ p ms) =
      ⟨[], ready empty_ready { sleeping p 0 with result_code := 0 }⟩ ∧
    readyFields { sleeping p 0 with result_code := 0 } ∈
      (tick^[(ms_to_time_slices ms).toNat]
        (sleep_call ⟨[], empty_ready⟩ p ms)).ready_queues p.priority := by
  have hceil : ms_to_time_slices ms = (((ms + 9) / 10 : Nat) : Int) := by
    by_cases h : ms % 10 = 0 <;> simp [ms_to_time_slices, h] <;> omega
  have ht1 : 1 ≤ ms_to_time_slices ms := by
    rw [hceil]
    omega
  have hstart : sleep_call ⟨[], empty_ready⟩ p ms =
      ⟨[sleeping p (ms_to_time_slices ms)], empty_ready⟩ := by
    simp [sleep_call, insert, sleeping]
  have hiter : ∀ k : Nat, (k : Int) < ms_to_time_slices ms →
      tick^[k] (sleep_call ⟨[], empty_ready⟩ p ms) =
        ⟨[sleeping p (ms_to_time_slices ms - (k : Int))], empty_ready⟩ := by
    intro k hk
    rw [hstart]
    exact iterate_tick_singleton (sleeping p 0) empty_ready
      (ms_to_time_slices ms) k hk
  have hfinal : tick^[(ms_to_time_slices ms).toNat]
      (sleep_call ⟨[], empty_ready⟩ p ms) =
      ⟨[], ready empty_ready { sleeping p 0 with result_code := 0 }⟩ := by
    have htn : (ms_to_time_slices ms).toNat =
        ((ms_to_time_slices ms).toNat - 1) + 1 := by
      omega
    rw [htn, Function.iterate_succ_apply']
    rw [hiter ((ms_to_time_slices ms).toNat - 1) (by omega)]
    have hkey : ms_to_time_slices ms -
        (((ms_to_time_slices ms).toNat - 1 : Nat) : Int) = 1 := by
      omega
    rw [hkey]
    exact tick_singleton_wake (sleeping p 0) empty_ready
  refine ⟨hceil, hstart, hiter, hfinal, ?_⟩
  rw [hfinal]
  simp [ready, readyFields, sleeping, hpid, Function.update_same]

/-- Witness for sleep_wakes_after_exact_ticks: a 25 ms sleep (3 ticks) of a
concrete process is woken with result_code 0 on the third tick. -/
theorem sleep_wakes_after_exact_ticks_witness :
    tick^[(ms_to_time_slices 25).toNat]
        (sleep_call ⟨[], empty_ready⟩ (mkPcb 9) 25) =
      ⟨[], ready empty_ready { sleeping (mkPcb 9) 0 with result_code := 0 }⟩ :=
  (sleep_wakes_after_exact_ticks (mkPcb 9) 25 (by decide) (by decide)).2.2.2.1

end MiniOS
